import Mathlib

/-!
# Executor committee node state machine

A shallow embedding of `go/worker/compute/executor/committee/state.go`:
the symbolic state names, the table of valid state transitions, the six
node state types with their payloads, and `StateProcessingBatch.cancel`;
followed by the storage worker gRPC handlers (`go/worker/storage/grpc.go`)
and the beacon backend selection (`go/beacon/init.go`).
-/

namespace Committee

/-! ## State names and the transition table -/

/-- StateName is a symbolic state without the attached values
(`type StateName string`). -/
abbrev StateName := String

/-- NotReady is the name of StateNotReady. -/
def NotReady : StateName := "NotReady"
/-- WaitingForBatch is the name of StateWaitingForBatch. -/
def WaitingForBatch : StateName := "WaitingForBatch"
/-- WaitingForBlock is the name of StateWaitingForBlock. -/
def WaitingForBlock : StateName := "WaitingForBlock"
/-- WaitingForEvent is the name of StateWaitingForEvent. -/
def WaitingForEvent : StateName := "WaitingForEvent"
/-- ProcessingBatch is the name of StateProcessingBatch. -/
def ProcessingBatch : StateName := "ProcessingBatch"
/-- WaitingForFinalize is the name of StateWaitingForFinalize. -/
def WaitingForFinalize : StateName := "WaitingForFinalize"

/-- Valid state transitions: the map literal `map[StateName][]StateName`,
as its key/value entries in source order. -/
def validStateTransitions : List (StateName × List StateName) :=
  [ -- Transitions from NotReady state.
    (NotReady, [NotReady, WaitingForBatch]),
    -- Transitions from WaitingForBatch state.
    (WaitingForBatch,
      [WaitingForBatch, WaitingForBlock, ProcessingBatch, WaitingForEvent, NotReady]),
    -- Transitions from WaitingForBlock state.
    (WaitingForBlock, [WaitingForBatch, ProcessingBatch, WaitingForEvent, NotReady]),
    -- Transitions from WaitingForEvent state.
    (WaitingForEvent, [WaitingForBatch, ProcessingBatch, NotReady]),
    -- Transitions from ProcessingBatch state.
    (ProcessingBatch, [WaitingForFinalize]),
    -- Transitions from WaitingForFinalize state.
    (WaitingForFinalize, [WaitingForBatch, NotReady]) ]

/-- Go map indexing `m[k]`: the value stored under `k`, or the zero value
(a nil slice) when `k` is not a key. -/
def mapIndex (m : List (StateName × List StateName)) (k : StateName) : List StateName :=
  (m.lookup k).getD []

/-- The successors listed for a state: `validStateTransitions[from]`. -/
def successors (src : StateName) : List StateName :=
  mapIndex validStateTransitions src

/-- A transition `src -> dst` is valid when `dst` occurs in
`validStateTransitions[src]`. -/
def isValidTransition (src dst : StateName) : Bool :=
  (successors src).contains dst

/-- The six state names, in declaration order. -/
def allStateNames : List StateName :=
  [NotReady, WaitingForBatch, WaitingForBlock, WaitingForEvent, ProcessingBatch,
    WaitingForFinalize]

/-- A run of the table: a finite sequence of states whose consecutive pairs
are all valid transitions. -/
def validRun : List StateName → Bool
  | [] => true
  | [_] => true
  | a :: b :: rest => isValidTransition a b && validRun (b :: rest)

/-- The transition table of section 4.1 of the specification, row by row as
it is written there (source state, allowed targets). -/
def specTransitionTable : List (StateName × List StateName) :=
  [ ("NotReady", ["NotReady", "WaitingForBatch"]),
    ("WaitingForBatch",
      ["WaitingForBatch", "WaitingForBlock", "ProcessingBatch", "WaitingForEvent",
        "NotReady"]),
    ("WaitingForBlock", ["WaitingForBatch", "ProcessingBatch", "WaitingForEvent", "NotReady"]),
    ("WaitingForEvent", ["WaitingForBatch", "ProcessingBatch", "NotReady"]),
    ("ProcessingBatch", ["WaitingForFinalize"]),
    ("WaitingForFinalize", ["WaitingForBatch", "NotReady"]) ]

/-- Legality according to the specification: `dst` is listed in the row of
`src` in the section 4.1 table. -/
def specAllows (src dst : StateName) : Bool :=
  specTransitionTable.any (fun row => src == row.1 && row.2.contains dst)

/-! ## Payload types -/

/-- Modelled from the spec: `hash.Hash`, a content hash, as its bytes. -/
abbrev Hash := List Nat

/-- Modelled from the spec: `transaction.RawBatch`, an ordered sequence of
opaque transaction byte-sequences. -/
abbrev RawBatch := List (List Nat)

/-- An `opentracing.SpanContext`, as an opaque identifier. -/
abbrev SpanContext := Nat

/-- A `time.Time`, as a number of ticks. -/
abbrev Time := Nat

/-- Modelled from the spec: `signature.Signature`, an opaque signature, as
the signer's key bytes and the signature bytes. -/
structure Signature where
  publicKey : List Nat
  signature : List Nat
deriving DecidableEq, Repr

/-- Modelled from the spec: `block.Header`, carrying the round number and
the state and I/O root commitments. -/
structure Header where
  round : Nat
  ioRoot : Hash
  stateRoot : Hash
deriving DecidableEq, Repr

/-- Modelled from the spec: `roothash.ExecutionDiscrepancyDetectedEvent`, a
round number and a flag indicating that backup promotion is requested. -/
structure ExecutionDiscrepancyDetectedEvent where
  round : Nat
  confirmed : Bool
deriving DecidableEq, Repr

/-- Modelled from the spec: `protocol.ComputedBatch`, the executed result
delivered on the completion channel, as its bytes. -/
structure ComputedBatch where
  result : List Nat
deriving DecidableEq, Repr

/-! ## Channels and cancellation functions -/

/-- A channel value `chan *protocol.ComputedBatch`, as a reference into the
channel store. -/
abbrev ChanRef := Nat

/-- The state of one channel as seen by a receiver: the values that will be
delivered to it, in order (pointers, so `none` is a nil pointer), and
whether the channel is closed once they are drained. -/
structure ChanState where
  pending : List (Option ComputedBatch)
  closed : Bool
deriving DecidableEq, Repr

/-- The channel store. -/
abbrev Chans := ChanRef → ChanState

/-- A `context.CancelFunc`: a `func()` acting on the rest of the program,
which the driver observes through the channels. -/
abbrev CancelFunc := Chans → Chans

/-- Operations performed by the driver goroutine, in the order performed. -/
inductive Op where
  /-- A call of the cancellation function. -/
  | invokeCancelFn
  /-- A completed receive from the done channel, with the value received. -/
  | recvDone (v : Option ComputedBatch)
deriving DecidableEq, Repr

/-- The world of the driver goroutine: the channel store and the
operations performed so far. -/
structure World where
  chans : Chans
  trace : List Op

/-- How a call ends: it returns, it blocks forever, or it panics. -/
inductive Outcome (α : Type) where
  | returned (a : α) (w : World)
  | blocked (w : World)
  | panicked (w : World)

/-- Sequencing of statements: the next one runs only after the previous
one has returned. -/
def Outcome.andThen {α β : Type} (o : Outcome α) (k : α → World → Outcome β) : Outcome β :=
  match o with
  | .returned a w => k a w
  | .blocked w => .blocked w
  | .panicked w => .panicked w

/-- A call `f()` of a function value: calling a nil function panics. -/
def callFunc (f : Option CancelFunc) (w : World) : Outcome Unit :=
  match f with
  | none => .panicked w
  | some g => .returned () { chans := g w.chans, trace := w.trace ++ [Op.invokeCancelFn] }

/-- A receive `<-ch`: it takes the next value the channel delivers; on a
drained closed channel it yields the zero value at once; otherwise it
blocks forever. -/
def recvChan (ch : ChanRef) (w : World) : Outcome (Option ComputedBatch) :=
  match (w.chans ch).pending with
  | v :: rest =>
    .returned v
      { chans := Function.update w.chans ch { pending := rest, closed := (w.chans ch).closed },
        trace := w.trace ++ [Op.recvDone v] }
  | [] =>
    if (w.chans ch).closed then
      .returned none { chans := w.chans, trace := w.trace ++ [Op.recvDone none] }
    else .blocked w

/-! ## Node states -/

/-- StateNotReady is the not ready state. -/
structure StateNotReady where
deriving DecidableEq, Repr

/-- StateWaitingForBatch is the waiting for batch state. -/
structure StateWaitingForBatch where
  /-- Pending execute discrepancy detected event in case the node is a
  backup worker and the event was received before the batch. -/
  pendingEvent : Option ExecutionDiscrepancyDetectedEvent
deriving DecidableEq, Repr

/-- StateWaitingForBlock is the waiting for block state. -/
structure StateWaitingForBlock where
  /-- I/O root from the transaction scheduler containing the inputs. -/
  ioRoot : Hash
  /-- Batch that is waiting to be processed. -/
  batch : RawBatch
  /-- Tracing for this batch. -/
  batchSpanCtx : SpanContext
  /-- Header of the block we are waiting for. -/
  header : Option Header
  /-- Transaction scheduler signature. -/
  txnSchedSig : Signature
  /-- Storage signatures for the I/O root containing the inputs. -/
  inputStorageSigs : List Signature
deriving DecidableEq, Repr

/-- StateWaitingForEvent is the waiting for event state. -/
structure StateWaitingForEvent where
  /-- I/O root from the transaction scheduler containing the inputs. -/
  ioRoot : Hash
  /-- Batch that is being processed. -/
  batch : RawBatch
  /-- Tracing for this batch. -/
  batchSpanCtx : SpanContext
  /-- Transaction scheduler signature. -/
  txnSchedSig : Signature
  /-- Storage signatures for the I/O root containing the inputs. -/
  inputStorageSigs : List Signature
deriving DecidableEq, Repr

/-- StateProcessingBatch is the processing batch state. -/
structure StateProcessingBatch where
  /-- I/O root from the transaction scheduler containing the inputs. -/
  ioRoot : Hash
  /-- Batch that is being processed. -/
  batch : RawBatch
  /-- Tracing for this batch. -/
  batchSpanCtx : SpanContext
  /-- Timing for this batch. -/
  batchStartTime : Time
  /-- Function for cancelling batch processing (a nil function is `none`). -/
  cancelFn : Option CancelFunc
  /-- Channel which will provide the result. -/
  done : ChanRef
  /-- Transaction scheduler signature. -/
  txnSchedSig : Signature
  /-- Storage signatures for the I/O root containing the inputs. -/
  inputStorageSigs : List Signature

/-- StateWaitingForFinalize is the waiting for finalize state. -/
structure StateWaitingForFinalize where
  batchStartTime : Time
deriving DecidableEq, Repr

/-- Go `string`, the result type of the `String()` methods. -/
abbrev GoString := String

/-- Name returns the name of the state. -/
def StateNotReady.Name (_s : StateNotReady) : StateName := NotReady
/-- String returns a string representation of the state. -/
def StateNotReady.String (s : StateNotReady) : GoString := s.Name

/-- Name returns the name of the state. -/
def StateWaitingForBatch.Name (_s : StateWaitingForBatch) : StateName := WaitingForBatch
/-- String returns a string representation of the state. -/
def StateWaitingForBatch.String (s : StateWaitingForBatch) : GoString := s.Name

/-- Name returns the name of the state. -/
def StateWaitingForBlock.Name (_s : StateWaitingForBlock) : StateName := WaitingForBlock
/-- String returns a string representation of the state. -/
def StateWaitingForBlock.String (s : StateWaitingForBlock) : GoString := s.Name

/-- Name returns the name of the state. -/
def StateWaitingForEvent.Name (_s : StateWaitingForEvent) : StateName := WaitingForEvent
/-- String returns a string representation of the state. -/
def StateWaitingForEvent.String (s : StateWaitingForEvent) : GoString := s.Name

/-- Name returns the name of the state. -/
def StateProcessingBatch.Name (_s : StateProcessingBatch) : StateName := ProcessingBatch
/-- String returns a string representation of the state. -/
def StateProcessingBatch.String (s : StateProcessingBatch) : GoString := s.Name

/-- Invoke the cancellation function and wait for the processing to
actually stop: `(s.cancelFn)()` followed by `<-s.done`. -/
def StateProcessingBatch.cancel (s : StateProcessingBatch) (w : World) : Outcome Unit :=
  (callFunc s.cancelFn w).andThen fun _ w1 =>
  (recvChan s.done w1).andThen fun _ w2 =>
  .returned () w2

/-- Name returns the name of the state. -/
def StateWaitingForFinalize.Name (_s : StateWaitingForFinalize) : StateName :=
  WaitingForFinalize
/-- String returns a string representation of the state. -/
def StateWaitingForFinalize.String (s : StateWaitingForFinalize) : GoString := s.Name

/-- NodeState is a node state: a value of one of the six state types,
each of which implements the interface method `Name`. -/
inductive NodeState where
  | notReady (s : StateNotReady)
  | waitingForBatch (s : StateWaitingForBatch)
  | waitingForBlock (s : StateWaitingForBlock)
  | waitingForEvent (s : StateWaitingForEvent)
  | processingBatch (s : StateProcessingBatch)
  | waitingForFinalize (s : StateWaitingForFinalize)

/-- Name returns the name of the state (interface method dispatch). -/
def NodeState.Name : NodeState → StateName
  | .notReady s => s.Name
  | .waitingForBatch s => s.Name
  | .waitingForBlock s => s.Name
  | .waitingForEvent s => s.Name
  | .processingBatch s => s.Name
  | .waitingForFinalize s => s.Name

/-- Two node states are values of the same state type. -/
def NodeState.sameVariant : NodeState → NodeState → Bool
  | .notReady _, .notReady _ => true
  | .waitingForBatch _, .waitingForBatch _ => true
  | .waitingForBlock _, .waitingForBlock _ => true
  | .waitingForEvent _, .waitingForEvent _ => true
  | .processingBatch _, .processingBatch _ => true
  | .waitingForFinalize _, .waitingForFinalize _ => true
  | _, _ => false

/-- The executor handle held in a state payload: the cancellation function
and the completion channel, which only `StateProcessingBatch` declares. -/
def NodeState.executorHandle : NodeState → Option (Option CancelFunc × ChanRef)
  | .processingBatch s => some (s.cancelFn, s.done)
  | _ => none

/-- The discrepancy events held in a state payload: the fields of type
`*roothash.ExecutionDiscrepancyDetectedEvent`, which only
`StateWaitingForBatch` declares (`pendingEvent`). -/
def NodeState.heldEvents : NodeState → List ExecutionDiscrepancyDetectedEvent
  | .waitingForBatch s => s.pendingEvent.toList
  | _ => []

/-! ## Sample values -/

/-- A cancellation function after which the executor delivers the result
`r` on channel `ch`. -/
def deliverOnCancel (ch : ChanRef) (r : ComputedBatch) : CancelFunc :=
  fun chans => Function.update chans ch { pending := [some r], closed := false }

/-- A ProcessingBatch state whose executor answers cancellation by
delivering a result on its done channel 7. -/
def sampleProcessing : StateProcessingBatch :=
  { ioRoot := [1], batch := [[2], [3]], batchSpanCtx := 0, batchStartTime := 10,
    cancelFn := some (deliverOnCancel 7 { result := [4] }), done := 7,
    txnSchedSig := { publicKey := [], signature := [] }, inputStorageSigs := [] }

/-- A ProcessingBatch state whose executor ignores cancellation and never
delivers. -/
def sampleStuck : StateProcessingBatch :=
  { sampleProcessing with cancelFn := some (fun chans => chans) }

/-- A world in which no channel has anything to deliver and nothing has
been performed yet. -/
def sampleWorld : World :=
  { chans := fun _ => { pending := [], closed := false }, trace := [] }

/-- The discrepancy event of the carry-through scenario: round 5, confirmed. -/
def sampleEvent : ExecutionDiscrepancyDetectedEvent := { round := 5, confirmed := true }

/-! ## Measures on the transition table -/

/-- The keys of the transition table. -/
def transitionKeys : List StateName :=
  validStateTransitions.map Prod.fst

/-- Reachability by at least one and at most `n` valid transitions. -/
def reachesWithin : Nat → StateName → StateName → Bool
  | 0, _, _ => false
  | n + 1, a, b => isValidTransition a b || (successors a).any fun c => reachesWithin n c b

/-- The rank of a state within the handling of one batch: the reset states
NotReady and WaitingForBatch (and any other string) rank 0, then
WaitingForBlock < WaitingForEvent < ProcessingBatch < WaitingForFinalize. -/
def batchRank (a : StateName) : Nat :=
  if a = WaitingForBlock then 1
  else if a = WaitingForEvent then 2
  else if a = ProcessingBatch then 3
  else if a = WaitingForFinalize then 4
  else 0

end Committee

/-! # Go values shared by the packages below -/

/-- A Go `error` value, as its message. -/
structure GoError where
  msg : String
deriving DecidableEq, Repr

/-! # Storage worker gRPC handlers (`go/worker/storage/grpc.go`) -/

namespace Storage

/-- A `signature.PublicKey`, as its bytes. -/
abbrev PublicKey := List Nat

/-- A storage root hash, as its bytes. -/
abbrev Hash := List Nat

/-- ErrRuntimeNotFound is the error returned when the called references an
unknown runtime. -/
def ErrRuntimeNotFound : GoError := { msg := "worker/storage: runtime not found" }

/-- The functions of other packages that the handlers call:
`signature.PublicKey.UnmarshalBinary` and `cbor.Marshal`. -/
structure Deps where
  /-- The call `id.UnmarshalBinary(data)`: the decoded id, or the error. -/
  unmarshalBinary : List Nat → Except GoError PublicKey
  /-- The call `cbor.Marshal(root)`. -/
  cborMarshal : Hash → List Nat

/-- A `*committee.Node`, as what its two methods called here return. -/
structure Node where
  /-- The result of `GetLastSynced()`: round, I/O root, state root. -/
  getLastSynced : Nat × Hash × Hash
  /-- The error result of `ForceFinalize(ctx, id, round)`, `none` for nil. -/
  forceFinalize : PublicKey → Nat → Option GoError

/-- The storage worker, as its `runtimes` map. -/
structure Worker where
  runtimes : PublicKey → Option Node

/-- The gRPC server of the storage worker. -/
structure grpcServer where
  w : Worker

/-- The request of GetLastSyncedRound. -/
structure GetLastSyncedRoundRequest where
  RuntimeId : List Nat
deriving DecidableEq, Repr

/-- The response of GetLastSyncedRound. -/
structure GetLastSyncedRoundResponse where
  Round : Nat
  IoRoot : List Nat
  StateRoot : List Nat
deriving DecidableEq, Repr

/-- The request of ForceFinalize. -/
structure ForceFinalizeRequest where
  RuntimeId : List Nat
  Round : Nat
deriving DecidableEq, Repr

/-- The response of ForceFinalize. -/
structure ForceFinalizeResponse where
deriving DecidableEq, Repr

/-- The handler GetLastSyncedRound; the result is the Go pair (response,
error), `none` for nil. -/
def grpcServer.GetLastSyncedRound (d : Deps) (s : grpcServer)
    (req : GetLastSyncedRoundRequest) :
    Option GetLastSyncedRoundResponse × Option GoError :=
  match d.unmarshalBinary req.RuntimeId with
  | .error err => (none, some err)
  | .ok id =>
    match s.w.runtimes id with
    | none => (none, some ErrRuntimeNotFound)
    | some node =>
      let (round, ioRoot, stateRoot) := node.getLastSynced
      (some { Round := round, IoRoot := d.cborMarshal ioRoot,
              StateRoot := d.cborMarshal stateRoot }, none)

/-- The handler ForceFinalize; the result is the Go pair (response, error),
`none` for nil. -/
def grpcServer.ForceFinalize (d : Deps) (s : grpcServer) (req : ForceFinalizeRequest) :
    Option ForceFinalizeResponse × Option GoError :=
  match d.unmarshalBinary req.RuntimeId with
  | .error err => (none, some err)
  | .ok id =>
    let round := req.Round
    match s.w.runtimes id with
    | none => (none, some ErrRuntimeNotFound)
    | some node =>
      match node.forceFinalize id round with
      | some err => (none, some err)
      | none => (some {}, none)

/-- A decoder that accepts exactly the 32-byte ids. -/
def sampleDeps : Deps :=
  { unmarshalBinary := fun data =>
      if data.length = 32 then .ok data else .error { msg := "signature: malformed public key" },
    cborMarshal := fun root => root }

/-- The id of a runtime whose node finalizes without error. -/
def knownId : PublicKey := List.replicate 32 1

/-- The id of a runtime whose node fails to finalize. -/
def failingId : PublicKey := List.replicate 32 2

/-- The id of a runtime the worker does not have. -/
def unknownId : PublicKey := List.replicate 32 0

/-- A node synced to round 7 whose ForceFinalize returns nil. -/
def sampleNode : Node :=
  { getLastSynced := (7, [1], [2]), forceFinalize := fun _ _ => none }

/-- A node synced to round 7 whose ForceFinalize returns the error value
ErrRuntimeNotFound. -/
def sentinelNode : Node :=
  { getLastSynced := (7, [1], [2]), forceFinalize := fun _ _ => some ErrRuntimeNotFound }

/-- A server whose worker has the two runtimes `knownId` and `failingId`. -/
def sampleServer : grpcServer :=
  { w := { runtimes := fun id =>
      if id = knownId then some sampleNode
      else if id = failingId then some sentinelNode
      else none } }

end Storage

/-! # Beacon backend selection (`go/beacon/init.go`) -/

namespace Beacon

/-- The configuration key of the backend name. -/
def cfgBackend : String := "beacon.backend"

/-- The functions and constants of other packages that `New` uses:
`viper.GetString`, `strings.ToLower`, `tendermint.BackendName` and
`tendermint.New`. -/
structure Deps (Ctx TimeSource TmService Backend : Type) where
  /-- The call `viper.GetString(key)`. -/
  getString : String → String
  /-- The call `strings.ToLower(s)`. -/
  toLower : String → String
  /-- The constant `tendermint.BackendName`. -/
  BackendName : String
  /-- The call `tendermint.New(ctx, timeSource, tmService)`. -/
  tendermintNew : Ctx → TimeSource → TmService → Option Backend × Option GoError

/-- The error built by `fmt.Errorf` in the default case of `New`, with the
configured string quoted. -/
def unsupportedBackend (backend : String) : GoError :=
  { msg := "beacon: unsupported backend: " ++ "\x27" ++ backend ++ "\x27" }

/-- New constructs a new Backend based on the configuration flags. -/
def New {Ctx TimeSource TmService Backend : Type} (d : Deps Ctx TimeSource TmService Backend)
    (ctx : Ctx) (timeSource : TimeSource) (tmService : TmService) :
    Option Backend × Option GoError :=
  let backend := d.getString cfgBackend
  if d.toLower backend = d.BackendName then d.tendermintNew ctx timeSource tmService
  else (none, some (unsupportedBackend backend))

/-- A sample lower-casing for the examples: it lower-cases the ASCII letters
of a string and leaves every other character as it is, so it agrees with
`strings.ToLower` on ASCII strings only. -/
def asciiToLower (s : String) : String :=
  String.mk (s.toList.map Char.toLower)

/-- A configuration with the given backend string, ASCII lower-casing, the
backend name "tendermint" and a constructor that returns backend 1. -/
def sampleDeps (configured : String) : Deps Unit Unit Unit Nat :=
  { getString := fun key => if key = cfgBackend then configured else "",
    toLower := asciiToLower,
    BackendName := "tendermint",
    tendermintNew := fun _ _ _ => (some 1, none) }

end Beacon

namespace Committee

/-! ## Facts about the table shared by the results below -/

theorem successors_def (a : StateName) :
    successors a =
      if a = NotReady then [NotReady, WaitingForBatch]
      else if a = WaitingForBatch then
        [WaitingForBatch, WaitingForBlock, ProcessingBatch, WaitingForEvent, NotReady]
      else if a = WaitingForBlock then
        [WaitingForBatch, ProcessingBatch, WaitingForEvent, NotReady]
      else if a = WaitingForEvent then [WaitingForBatch, ProcessingBatch, NotReady]
      else if a = ProcessingBatch then [WaitingForFinalize]
      else if a = WaitingForFinalize then [WaitingForBatch, NotReady]
      else [] := by
  simp only [successors, mapIndex, validStateTransitions, List.lookup]
  repeat' split
  all_goals simp_all

theorem isValidTransition_iff_mem (a b : StateName) :
    isValidTransition a b = true ↔ b ∈ mapIndex validStateTransitions a := by
  simp [isValidTransition, successors]

theorem specAllows_eq (a b : StateName) : specAllows a b = isValidTransition a b := by
  rw [isValidTransition, successors_def]
  simp only [specAllows, specTransitionTable, List.any_cons, List.any_nil, NotReady,
    WaitingForBatch, WaitingForBlock, WaitingForEvent, ProcessingBatch, WaitingForFinalize]
  repeat' split
  all_goals simp_all

theorem isValidTransition_processingBatch (b : StateName) :
    isValidTransition ProcessingBatch b = true ↔ b = WaitingForFinalize := by
  rw [isValidTransition, successors_def]
  simp [NotReady, WaitingForBatch, WaitingForBlock, WaitingForEvent, ProcessingBatch,
    WaitingForFinalize]

theorem validRun_cons_cons (a b : StateName) (rest : List StateName) :
    validRun (a :: b :: rest) = true ↔
      isValidTransition a b = true ∧ validRun (b :: rest) = true := by
  simp [validRun]

theorem validRun_tail (a : StateName) (rest : List StateName)
    (h : validRun (a :: rest) = true) : validRun rest = true := by
  cases rest with
  | nil => rfl
  | cons b rest => exact ((validRun_cons_cons a b rest).1 h).2

/-- Consecutive positions of a valid run are linked by a valid transition. -/
theorem validRun_step (run : List StateName) (h : validRun run = true) (i : Nat)
    (a b : StateName) (ha : run[i]? = some a) (hb : run[i + 1]? = some b) :
    isValidTransition a b = true := by
  induction run generalizing i with
  | nil => simp at ha
  | cons x rest ih =>
    cases rest with
    | nil => simp at hb
    | cons y rest =>
      obtain ⟨hxy, hrest⟩ := (validRun_cons_cons x y rest).1 h
      cases i with
      | zero =>
        simp at ha hb
        subst ha; subst hb
        exact hxy
      | succ i =>
        rw [List.getElem?_cons_succ] at ha hb
        exact ih hrest i ha hb

theorem validRun_replicate (a : StateName) (h : isValidTransition a a = true) (n : Nat) :
    validRun (List.replicate n a) = true := by
  induction n with
  | zero => rfl
  | succ n ih =>
    cases n with
    | zero => rfl
    | succ n =>
      rw [List.replicate_succ, List.replicate_succ, validRun_cons_cons]
      exact ⟨h, by simpa [List.replicate_succ] using ih⟩

/-! ## The transition table -/

/-- C1: validStateTransitions is exactly the transition table of the
specification: for every pair of state names (A, B), and indeed for every
pair of strings, B occurs in validStateTransitions[A] if and only if B is
listed in the row of A in the section 4.1 table; in particular each of the
36 pairs of the six names is decided, and a pair outside the table is not
a valid transition. -/
theorem validStateTransitions_matches_spec_table :
    (∀ a b : StateName, b ∈ mapIndex validStateTransitions a ↔ specAllows a b = true) ∧
    (∀ a ∈ allStateNames, ∀ b ∈ allStateNames,
      specAllows a b = false → isValidTransition a b = false) := by
  refine ⟨fun a b => ?_, fun a _ b _ h => ?_⟩
  · rw [specAllows_eq, isValidTransition_iff_mem]
  · rw [← specAllows_eq]; exact h

/-- Witness for C1 at the pair (ProcessingBatch, NotReady), which the table
does not list. -/
theorem validStateTransitions_matches_spec_table_witness :
    isValidTransition ProcessingBatch NotReady = false :=
  validStateTransitions_matches_spec_table.2 ProcessingBatch (by decide) NotReady (by decide)
    (by decide)

/-- C2: from ProcessingBatch the only valid transition is to
WaitingForFinalize; ProcessingBatch -> NotReady is not valid; in every run
of valid transitions that starts at ProcessingBatch and reaches NotReady the
state right after ProcessingBatch is WaitingForFinalize and the run has at
least three states; and ProcessingBatch -> WaitingForFinalize -> NotReady
is such a run. -/
theorem processingBatch_leaves_through_finalize :
    (∀ b : StateName, isValidTransition ProcessingBatch b = true ↔ b = WaitingForFinalize) ∧
    isValidTransition ProcessingBatch NotReady = false ∧
    (∀ rest : List StateName, validRun (ProcessingBatch :: rest) = true → NotReady ∈ rest →
      rest.head? = some WaitingForFinalize ∧ 3 ≤ (ProcessingBatch :: rest).length) ∧
    validRun [ProcessingBatch, WaitingForFinalize, NotReady] = true := by
  refine ⟨isValidTransition_processingBatch, by decide, ?_, by decide⟩
  intro rest hrun hmem
  cases rest with
  | nil => simp at hmem
  | cons b rest =>
    obtain ⟨hb, _⟩ := (validRun_cons_cons _ b rest).1 hrun
    have hb := (isValidTransition_processingBatch b).1 hb
    subst hb
    refine ⟨rfl, ?_⟩
    cases rest with
    | nil =>
      simp [WaitingForFinalize, NotReady] at hmem
    | cons c rest => simp

/-- Witness for C2 at the run ProcessingBatch, WaitingForFinalize, NotReady. -/
theorem processingBatch_leaves_through_finalize_witness :
    [WaitingForFinalize, NotReady].head? = some WaitingForFinalize ∧
      3 ≤ (ProcessingBatch :: [WaitingForFinalize, NotReady]).length :=
  processingBatch_leaves_through_finalize.2.2.1 [WaitingForFinalize, NotReady] (by decide)
    (by decide)

/-- C3: the states with a valid transition into ProcessingBatch are exactly
WaitingForBatch, WaitingForBlock and WaitingForEvent; a node state with one
of these names holds no cancellation function and no completion channel;
ProcessingBatch -> ProcessingBatch is not valid; and in every run of valid
transitions any two distinct positions holding ProcessingBatch have a
WaitingForFinalize position strictly between them. -/
theorem at_most_one_executor :
    (∀ a : StateName, isValidTransition a ProcessingBatch = true ↔
      a ∈ [WaitingForBatch, WaitingForBlock, WaitingForEvent]) ∧
    (∀ s : NodeState, s.Name ∈ [WaitingForBatch, WaitingForBlock, WaitingForEvent] →
      s.executorHandle = none) ∧
    isValidTransition ProcessingBatch ProcessingBatch = false ∧
    (∀ (run : List StateName) (i j : Nat), validRun run = true → i < j →
      run[i]? = some ProcessingBatch → run[j]? = some ProcessingBatch →
      ∃ k, i < k ∧ k < j ∧ run[k]? = some WaitingForFinalize) := by
  refine ⟨fun a => ?_, fun s hs => ?_, by decide, ?_⟩
  · rw [isValidTransition, successors_def]
    simp only [NotReady, WaitingForBatch, WaitingForBlock, WaitingForEvent, ProcessingBatch,
      WaitingForFinalize]
    repeat' split
    all_goals simp_all
  · cases s <;>
      simp [NodeState.Name, StateNotReady.Name, StateWaitingForBatch.Name,
        StateWaitingForBlock.Name, StateWaitingForEvent.Name, StateProcessingBatch.Name,
        StateWaitingForFinalize.Name, NodeState.executorHandle, NotReady, WaitingForBatch,
        WaitingForBlock, WaitingForEvent, ProcessingBatch, WaitingForFinalize] at hs ⊢
  · intro run i j hrun hij hi hj
    have hjlt : j < run.length := by
      by_contra hcon
      rw [List.getElem?_eq_none (by omega)] at hj
      exact Option.noConfusion hj
    have hlt : i + 1 < run.length := by omega
    have hnext : run[i + 1]? = some (run[i + 1]) := List.getElem?_eq_getElem hlt
    have hstep := validRun_step run hrun i ProcessingBatch (run[i + 1]) hi hnext
    have hfin := (isValidTransition_processingBatch _).1 hstep
    rw [hfin] at hnext
    refine ⟨i + 1, by omega, ?_, hnext⟩
    rcases Nat.lt_or_ge (i + 1) j with h | h
    · exact h
    · have hje : j = i + 1 := by omega
      rw [hje, hnext] at hj
      exact absurd hj (by decide)

/-- Witness for C3 at the run ProcessingBatch, WaitingForFinalize,
WaitingForBatch, ProcessingBatch and its positions 0 and 3. -/
theorem at_most_one_executor_witness :
    ∃ k, 0 < k ∧ k < 3 ∧
      [ProcessingBatch, WaitingForFinalize, WaitingForBatch, ProcessingBatch][k]? =
        some WaitingForFinalize :=
  at_most_one_executor.2.2.2
    [ProcessingBatch, WaitingForFinalize, WaitingForBatch, ProcessingBatch] 0 3 (by decide)
    (by decide) (by decide) (by decide)

/-- C4: the end-to-end scenario of the specification is a legal run of the
table: every consecutive pair in NotReady -> WaitingForBatch ->
ProcessingBatch -> WaitingForFinalize -> WaitingForBatch is a valid
transition. -/
theorem end_to_end_scenario_valid :
    isValidTransition NotReady WaitingForBatch = true ∧
    isValidTransition WaitingForBatch ProcessingBatch = true ∧
    isValidTransition ProcessingBatch WaitingForFinalize = true ∧
    isValidTransition WaitingForFinalize WaitingForBatch = true ∧
    validRun [NotReady, WaitingForBatch, ProcessingBatch, WaitingForFinalize,
      WaitingForBatch] = true := by
  decide

/-- C5: for every state name other than ProcessingBatch the transition to
NotReady is valid in one step (and from ProcessingBatch it is not), and from
each of the six state names there is a run of at most two valid transitions
that ends in NotReady. -/
theorem leaving_committee_resolves_to_notReady :
    (∀ a ∈ allStateNames, a ≠ ProcessingBatch → isValidTransition a NotReady = true) ∧
    isValidTransition ProcessingBatch NotReady = false ∧
    (∀ a ∈ allStateNames, ∃ run : List StateName,
      run.head? = some a ∧ run.getLast? = some NotReady ∧ validRun run = true ∧
        1 ≤ run.length ∧ run.length ≤ 3) := by
  refine ⟨by decide, by decide, ?_⟩
  intro a ha
  by_cases hp : a = ProcessingBatch
  · subst hp
    exact ⟨[ProcessingBatch, WaitingForFinalize, NotReady], by decide⟩
  · have hv : isValidTransition a NotReady = true := by
      revert a
      decide
    exact ⟨[a, NotReady], by simp [validRun, hv]⟩

/-- Witness for C5 at WaitingForEvent. -/
theorem leaving_committee_resolves_to_notReady_witness :
    isValidTransition WaitingForEvent NotReady = true :=
  leaving_committee_resolves_to_notReady.1 WaitingForEvent (by decide) (by decide)

/-- C6, as the table has it: WaitingForFinalize -> WaitingForFinalize is not
a valid transition. -/
theorem waitingForFinalize_reentry_invalid :
    isValidTransition WaitingForFinalize WaitingForFinalize = false := by
  decide

/-- C6, amended: the valid transitions from WaitingForFinalize are exactly
those to WaitingForBatch and to NotReady, so a retryable finalize failure
has no transition of the table that re-enters WaitingForFinalize. -/
theorem waitingForFinalize_successors (b : StateName) :
    isValidTransition WaitingForFinalize b = true ↔ b = WaitingForBatch ∨ b = NotReady := by
  rw [isValidTransition, successors_def]
  simp [NotReady, WaitingForBatch, WaitingForBlock, WaitingForEvent, ProcessingBatch,
    WaitingForFinalize]

/-- C7: WaitingForBatch -> WaitingForBatch is a valid transition, so staying
in WaitingForBatch for any number of steps is a legal run that starts and
ends in WaitingForBatch; likewise NotReady -> NotReady. -/
theorem idempotent_reentry :
    isValidTransition WaitingForBatch WaitingForBatch = true ∧
    (∀ n : Nat, validRun (List.replicate (n + 1) WaitingForBatch) = true ∧
      (List.replicate (n + 1) WaitingForBatch).head? = some WaitingForBatch ∧
      (List.replicate (n + 1) WaitingForBatch).getLast? = some WaitingForBatch) ∧
    isValidTransition NotReady NotReady = true ∧
    (∀ n : Nat, validRun (List.replicate (n + 1) NotReady) = true ∧
      (List.replicate (n + 1) NotReady).head? = some NotReady ∧
      (List.replicate (n + 1) NotReady).getLast? = some NotReady) := by
  refine ⟨by decide, fun n => ⟨validRun_replicate _ (by decide) _, ?_, ?_⟩, by decide,
    fun n => ⟨validRun_replicate _ (by decide) _, ?_, ?_⟩⟩
  · simp [List.replicate_succ]
  · simp [List.getLast?_replicate]
  · simp [List.replicate_succ]
  · simp [List.getLast?_replicate]

/-! ## Node states -/

/-- C8: for every value of each of the six state types Name() returns the
name constant of that type, whatever the payload; the six names are
pairwise distinct; and two node states have the same Name() if and only if
they are values of the same state type. -/
theorem name_identifies_variant :
    (∀ s : StateNotReady, s.Name = NotReady ∧ (NodeState.notReady s).Name = NotReady) ∧
    (∀ s : StateWaitingForBatch,
      s.Name = WaitingForBatch ∧ (NodeState.waitingForBatch s).Name = WaitingForBatch) ∧
    (∀ s : StateWaitingForBlock,
      s.Name = WaitingForBlock ∧ (NodeState.waitingForBlock s).Name = WaitingForBlock) ∧
    (∀ s : StateWaitingForEvent,
      s.Name = WaitingForEvent ∧ (NodeState.waitingForEvent s).Name = WaitingForEvent) ∧
    (∀ s : StateProcessingBatch,
      s.Name = ProcessingBatch ∧ (NodeState.processingBatch s).Name = ProcessingBatch) ∧
    (∀ s : StateWaitingForFinalize,
      s.Name = WaitingForFinalize ∧
        (NodeState.waitingForFinalize s).Name = WaitingForFinalize) ∧
    allStateNames.Pairwise (fun a b => a ≠ b) ∧
    (∀ s t : NodeState, s.Name = t.Name ↔ s.sameVariant t = true) := by
  refine ⟨fun _ => ⟨rfl, rfl⟩, fun _ => ⟨rfl, rfl⟩, fun _ => ⟨rfl, rfl⟩, fun _ => ⟨rfl, rfl⟩,
    fun _ => ⟨rfl, rfl⟩, fun _ => ⟨rfl, rfl⟩, by decide, ?_⟩
  intro s t
  cases s <;> cases t <;>
    simp [NodeState.Name, StateNotReady.Name, StateWaitingForBatch.Name,
      StateWaitingForBlock.Name, StateWaitingForEvent.Name, StateProcessingBatch.Name,
      StateWaitingForFinalize.Name, NodeState.sameVariant, NotReady, WaitingForBatch,
      WaitingForBlock, WaitingForEvent, ProcessingBatch, WaitingForFinalize]

/-- C9: cancel is synchronous. Whenever cancel returns, the cancellation
function was not nil, the operations it performed are exactly one call of
cancelFn followed by exactly one completed receive from the done channel,
and that receive took the next value the channel delivered after the call
(or the zero value of a drained closed channel). It returns exactly when
cancelFn is not nil and the done channel delivers; and when the done
channel never delivers, cancel stays blocked after the call of cancelFn. -/
theorem cancel_synchronous (s : StateProcessingBatch) (w : World) :
    (∀ w' : World, s.cancel w = Outcome.returned () w' →
      ∃ (f : CancelFunc) (v : Option ComputedBatch), s.cancelFn = some f ∧
        w'.trace = w.trace ++ [Op.invokeCancelFn, Op.recvDone v] ∧
        (((f w.chans) s.done).pending = v :: (w'.chans s.done).pending ∨
          (((f w.chans) s.done).pending = [] ∧ ((f w.chans) s.done).closed = true ∧
            v = none ∧ w'.chans = f w.chans))) ∧
    ((∃ w' : World, s.cancel w = Outcome.returned () w') ↔
      ∃ f : CancelFunc, s.cancelFn = some f ∧
        (((f w.chans) s.done).pending ≠ [] ∨ ((f w.chans) s.done).closed = true)) ∧
    (∀ f : CancelFunc, s.cancelFn = some f → ((f w.chans) s.done).pending = [] →
      ((f w.chans) s.done).closed = false →
      s.cancel w =
        Outcome.blocked { chans := f w.chans, trace := w.trace ++ [Op.invokeCancelFn] }) := by
  cases hf : s.cancelFn with
  | none =>
    simp [StateProcessingBatch.cancel, callFunc, Outcome.andThen, hf]
  | some f =>
    cases hp : ((f w.chans) s.done).pending with
    | nil =>
      cases hc : ((f w.chans) s.done).closed <;>
        simp [StateProcessingBatch.cancel, callFunc, recvChan, Outcome.andThen, hf, hp, hc]
    | cons v rest =>
      simp [StateProcessingBatch.cancel, callFunc, recvChan, Outcome.andThen, hf, hp]

/-- Witness for C9: cancelling the sample state, whose executor delivers on
cancellation, returns; cancelling the sample state whose executor never
delivers stays blocked after the call of cancelFn. -/
theorem cancel_synchronous_witness :
    (∃ w' : World, sampleProcessing.cancel sampleWorld = Outcome.returned () w') ∧
    sampleStuck.cancel sampleWorld =
      Outcome.blocked { chans := sampleWorld.chans, trace := [Op.invokeCancelFn] } :=
  ⟨(cancel_synchronous sampleProcessing sampleWorld).2.1.2
      ⟨deliverOnCancel 7 { result := [4] }, rfl,
        Or.inl (by simp [deliverOnCancel, sampleProcessing])⟩,
    (cancel_synchronous sampleStuck sampleWorld).2.2 (fun chans => chans) rfl rfl rfl⟩

/-- C10, as the payloads have it: the event of round 5 stashed in a
WaitingForBatch state is held by that state, and no WaitingForBlock or
WaitingForEvent state holds it. -/
theorem pendingEvent_not_in_deferring_payloads :
    sampleEvent ∈ (NodeState.waitingForBatch { pendingEvent := some sampleEvent }).heldEvents ∧
    ¬ ∃ s : NodeState, (s.Name = WaitingForBlock ∨ s.Name = WaitingForEvent) ∧
        sampleEvent ∈ s.heldEvents := by
  refine ⟨by simp [NodeState.heldEvents], ?_⟩
  rintro ⟨s, hs, he⟩
  cases s <;>
    simp [NodeState.Name, StateWaitingForBatch.Name, NodeState.heldEvents, WaitingForBatch,
      WaitingForBlock, WaitingForEvent] at hs he

/-- C10, amended: a discrepancy event is held by a node state exactly when
the state is a WaitingForBatch state whose pendingEvent is that event; a
WaitingForBlock or WaitingForEvent state holds none, its payload being the
I/O root, the batch, the span context, the awaited header (WaitingForBlock
only), the scheduler signature and the storage signatures. -/
theorem pendingEvent_only_in_waitingForBatch :
    (∀ (s : NodeState) (e : ExecutionDiscrepancyDetectedEvent),
      e ∈ s.heldEvents ↔ ∃ b : StateWaitingForBatch,
        s = NodeState.waitingForBatch b ∧ b.pendingEvent = some e) ∧
    (∀ s : NodeState, s.Name = WaitingForBlock ∨ s.Name = WaitingForEvent →
      s.heldEvents = []) ∧
    (∀ p : StateWaitingForBlock,
      p = { ioRoot := p.ioRoot, batch := p.batch, batchSpanCtx := p.batchSpanCtx,
            header := p.header, txnSchedSig := p.txnSchedSig,
            inputStorageSigs := p.inputStorageSigs }) ∧
    (∀ p : StateWaitingForEvent,
      p = { ioRoot := p.ioRoot, batch := p.batch, batchSpanCtx := p.batchSpanCtx,
            txnSchedSig := p.txnSchedSig, inputStorageSigs := p.inputStorageSigs }) := by
  refine ⟨fun s e => ?_, fun s hs => ?_, fun _ => rfl, fun _ => rfl⟩
  · cases s <;> simp [NodeState.heldEvents]
  · cases s <;>
      simp [NodeState.Name, StateNotReady.Name, StateWaitingForBatch.Name,
        StateProcessingBatch.Name, StateWaitingForFinalize.Name, NodeState.heldEvents,
        NotReady, WaitingForBatch, WaitingForBlock, WaitingForEvent, ProcessingBatch,
        WaitingForFinalize] at hs ⊢

/-- Witness for C10, amended, at a WaitingForEvent state. -/
theorem pendingEvent_only_in_waitingForBatch_witness :
    (NodeState.waitingForEvent
      { ioRoot := [1], batch := [[2], [3]], batchSpanCtx := 0,
        txnSchedSig := { publicKey := [], signature := [] },
        inputStorageSigs := [] }).heldEvents = [] :=
  pendingEvent_only_in_waitingForBatch.2.1 _ (Or.inr rfl)

end Committee

namespace Storage

/-! ## The storage worker handlers -/

theorem sampleDeps_knownId : sampleDeps.unmarshalBinary knownId = .ok knownId := rfl

theorem sampleDeps_failingId : sampleDeps.unmarshalBinary failingId = .ok failingId := rfl

theorem sampleServer_knownId : sampleServer.w.runtimes knownId = some sampleNode := rfl

theorem sampleServer_failingId : sampleServer.w.runtimes failingId = some sentinelNode := rfl

/-- C11, as the handlers have it: on the sample server the runtime id
`failingId` decodes and is a key of the runtimes map, and ForceFinalize
still returns a nil response and ErrRuntimeNotFound, the error of the node
passed through. -/
theorem forceFinalize_not_found_for_known_runtime :
    sampleServer.ForceFinalize sampleDeps { RuntimeId := failingId, Round := 4 } =
      (none, some ErrRuntimeNotFound) ∧
    ¬ ∃ id, sampleDeps.unmarshalBinary failingId = .ok id ∧
        sampleServer.w.runtimes id = none := by
  refine ⟨by decide, ?_⟩
  rintro ⟨id, hid, hnone⟩
  rw [sampleDeps_failingId] at hid
  injection hid with hid
  subst hid
  rw [sampleServer_failingId] at hnone
  exact Option.noConfusion hnone

/-- C11, amended: each of the two handlers returns a nil response and
ErrRuntimeNotFound when the runtime id of the request decodes and is not a
key of the runtimes map; when the id fails to decode it returns a nil
response and the decode error, whatever the runtimes map holds.
GetLastSyncedRound returns ErrRuntimeNotFound exactly when the id decodes
and is not a key, or the decode error is ErrRuntimeNotFound itself;
ForceFinalize exactly when the id decodes and is not a key, or the decode
error is ErrRuntimeNotFound itself, or the id decodes to a key whose node
returns ErrRuntimeNotFound from its ForceFinalize. The response is nil
whenever ErrRuntimeNotFound is returned. -/
theorem runtime_not_found_cases (d : Deps) (s : grpcServer) :
    (∀ (req : GetLastSyncedRoundRequest) (id : PublicKey),
      d.unmarshalBinary req.RuntimeId = .ok id → s.w.runtimes id = none →
      s.GetLastSyncedRound d req = (none, some ErrRuntimeNotFound)) ∧
    (∀ (req : ForceFinalizeRequest) (id : PublicKey),
      d.unmarshalBinary req.RuntimeId = .ok id → s.w.runtimes id = none →
      s.ForceFinalize d req = (none, some ErrRuntimeNotFound)) ∧
    (∀ (req : GetLastSyncedRoundRequest) (err : GoError),
      d.unmarshalBinary req.RuntimeId = .error err →
      ∀ s1 : grpcServer, s1.GetLastSyncedRound d req = (none, some err)) ∧
    (∀ (req : ForceFinalizeRequest) (err : GoError),
      d.unmarshalBinary req.RuntimeId = .error err →
      ∀ s1 : grpcServer, s1.ForceFinalize d req = (none, some err)) ∧
    (∀ req : GetLastSyncedRoundRequest,
      (s.GetLastSyncedRound d req).2 = some ErrRuntimeNotFound ↔
        (∃ id, d.unmarshalBinary req.RuntimeId = .ok id ∧ s.w.runtimes id = none) ∨
        d.unmarshalBinary req.RuntimeId = .error ErrRuntimeNotFound) ∧
    (∀ req : ForceFinalizeRequest,
      (s.ForceFinalize d req).2 = some ErrRuntimeNotFound ↔
        (∃ id, d.unmarshalBinary req.RuntimeId = .ok id ∧ s.w.runtimes id = none) ∨
        d.unmarshalBinary req.RuntimeId = .error ErrRuntimeNotFound ∨
        ∃ id node, d.unmarshalBinary req.RuntimeId = .ok id ∧
          s.w.runtimes id = some node ∧
          node.forceFinalize id req.Round = some ErrRuntimeNotFound) ∧
    (∀ req : GetLastSyncedRoundRequest,
      (s.GetLastSyncedRound d req).2 = some ErrRuntimeNotFound →
        (s.GetLastSyncedRound d req).1 = none) ∧
    (∀ req : ForceFinalizeRequest,
      (s.ForceFinalize d req).2 = some ErrRuntimeNotFound →
        (s.ForceFinalize d req).1 = none) := by
  refine ⟨fun req id hu hr => ?_, fun req id hu hr => ?_, fun req err h s1 => ?_,
    fun req err h s1 => ?_, fun req => ?_, fun req => ?_, fun req => ?_, fun req => ?_⟩
  · simp [grpcServer.GetLastSyncedRound, hu, hr]
  · simp [grpcServer.ForceFinalize, hu, hr]
  · simp [grpcServer.GetLastSyncedRound, h]
  · simp [grpcServer.ForceFinalize, h]
  · cases hu : d.unmarshalBinary req.RuntimeId with
    | error err => simp [grpcServer.GetLastSyncedRound, hu]
    | ok id =>
      cases hr : s.w.runtimes id with
      | none => simp [grpcServer.GetLastSyncedRound, hu, hr]
      | some node => simp [grpcServer.GetLastSyncedRound, hu, hr]
  · cases hu : d.unmarshalBinary req.RuntimeId with
    | error err => simp [grpcServer.ForceFinalize, hu]
    | ok id =>
      cases hr : s.w.runtimes id with
      | none => simp [grpcServer.ForceFinalize, hu, hr]
      | some node =>
        cases hf : node.forceFinalize id req.Round with
        | none => simp [grpcServer.ForceFinalize, hu, hr, hf]
        | some err => simp [grpcServer.ForceFinalize, hu, hr, hf]
  · cases hu : d.unmarshalBinary req.RuntimeId with
    | error err => simp [grpcServer.GetLastSyncedRound, hu]
    | ok id =>
      cases hr : s.w.runtimes id with
      | none => simp [grpcServer.GetLastSyncedRound, hu, hr]
      | some node => simp [grpcServer.GetLastSyncedRound, hu, hr]
  · cases hu : d.unmarshalBinary req.RuntimeId with
    | error err => simp [grpcServer.ForceFinalize, hu]
    | ok id =>
      cases hr : s.w.runtimes id with
      | none => simp [grpcServer.ForceFinalize, hu, hr]
      | some node =>
        cases hf : node.forceFinalize id req.Round with
        | none => simp [grpcServer.ForceFinalize, hu, hr, hf]
        | some err => simp [grpcServer.ForceFinalize, hu, hr, hf]

/-- Witness for C11, amended, on the sample server with two runtimes: the
unknown id is answered with ErrRuntimeNotFound by both handlers, a 3-byte
id with the decode error, the known id is not answered with
ErrRuntimeNotFound by ForceFinalize, and the response of ForceFinalize for
the runtime whose node fails is nil. -/
theorem runtime_not_found_cases_witness :
    sampleServer.GetLastSyncedRound sampleDeps { RuntimeId := unknownId } =
      (none, some ErrRuntimeNotFound) ∧
    sampleServer.ForceFinalize sampleDeps { RuntimeId := unknownId, Round := 4 } =
      (none, some ErrRuntimeNotFound) ∧
    sampleServer.GetLastSyncedRound sampleDeps { RuntimeId := [1, 2, 3] } =
      (none, some { msg := "signature: malformed public key" }) ∧
    sampleServer.ForceFinalize sampleDeps { RuntimeId := [1, 2, 3], Round := 4 } =
      (none, some { msg := "signature: malformed public key" }) ∧
    (sampleServer.ForceFinalize sampleDeps { RuntimeId := knownId, Round := 4 }).2 ≠
      some ErrRuntimeNotFound ∧
    (sampleServer.GetLastSyncedRound sampleDeps { RuntimeId := knownId }).2 ≠
      some ErrRuntimeNotFound ∧
    (sampleServer.ForceFinalize sampleDeps { RuntimeId := failingId, Round := 4 }).1 = none :=
  ⟨(runtime_not_found_cases sampleDeps sampleServer).1
      { RuntimeId := unknownId } unknownId rfl rfl,
    (runtime_not_found_cases sampleDeps sampleServer).2.1
      { RuntimeId := unknownId, Round := 4 } unknownId rfl rfl,
    (runtime_not_found_cases sampleDeps sampleServer).2.2.1
      { RuntimeId := [1, 2, 3] } { msg := "signature: malformed public key" } rfl sampleServer,
    (runtime_not_found_cases sampleDeps sampleServer).2.2.2.1
      { RuntimeId := [1, 2, 3], Round := 4 } { msg := "signature: malformed public key" } rfl
      sampleServer,
    fun h => by
      rcases ((runtime_not_found_cases sampleDeps sampleServer).2.2.2.2.2.1
        { RuntimeId := knownId, Round := 4 }).1 h with
        ⟨id, hid, hnone⟩ | herr | ⟨id, node, hid, hnode, hfin⟩
      · rw [sampleDeps_knownId] at hid
        injection hid with hid
        subst hid
        rw [sampleServer_knownId] at hnone
        exact Option.noConfusion hnone
      · rw [sampleDeps_knownId] at herr
        exact Except.noConfusion herr
      · rw [sampleDeps_knownId] at hid
        injection hid with hid
        subst hid
        rw [sampleServer_knownId] at hnode
        injection hnode with hnode
        subst hnode
        exact Option.noConfusion hfin,
    fun h => by
      rcases ((runtime_not_found_cases sampleDeps sampleServer).2.2.2.2.1
        { RuntimeId := knownId }).1 h with ⟨id, hid, hnone⟩ | herr
      · rw [sampleDeps_knownId] at hid
        injection hid with hid
        subst hid
        rw [sampleServer_knownId] at hnone
        exact Option.noConfusion hnone
      · rw [sampleDeps_knownId] at herr
        exact Except.noConfusion herr,
    (runtime_not_found_cases sampleDeps sampleServer).2.2.2.2.2.2.2
      { RuntimeId := failingId, Round := 4 } (by decide)⟩

end Storage

namespace Beacon

/-! ## Backend selection -/

/-- C12: New compares the lower-cased configured name with the tendermint
backend name: when they differ it returns a nil backend and the error
"beacon: unsupported backend: " followed by the configured string, as
configured, in single quotes; when they are equal it returns exactly what
tendermint.New returns. -/
theorem new_selects_backend_case_insensitively {Ctx TimeSource TmService Backend : Type}
    (d : Deps Ctx TimeSource TmService Backend) (ctx : Ctx) (timeSource : TimeSource)
    (tmService : TmService) :
    (d.toLower (d.getString cfgBackend) ≠ d.BackendName →
      New d ctx timeSource tmService =
        (none, some { msg := "beacon: unsupported backend: \x27" ++ d.getString cfgBackend ++
          "\x27" })) ∧
    (d.toLower (d.getString cfgBackend) = d.BackendName →
      New d ctx timeSource tmService = d.tendermintNew ctx timeSource tmService) := by
  constructor
  · intro h
    simp [New, h, unsupportedBackend, String.append_assoc]
  · intro h
    simp [New, h]

/-- Witness for C12: the configured string "TenderMint" selects the
tendermint backend, and "Memory" is rejected with the string as configured
in the message. -/
theorem new_selects_backend_case_insensitively_witness :
    New (sampleDeps "TenderMint") () () () = (some 1, none) ∧
    New (sampleDeps "Memory") () () () =
      (none, some { msg := "beacon: unsupported backend: \x27Memory\x27" }) :=
  ⟨(new_selects_backend_case_insensitively (sampleDeps "TenderMint") () () ()).2 (by decide),
    (new_selects_backend_case_insensitively (sampleDeps "Memory") () () ()).1 (by decide)⟩

end Beacon

namespace Committee

/-! ## Further facts about the table -/

/-- Both ends of a valid transition are among the six state names. -/
theorem isValidTransition_names (a b : StateName) (h : isValidTransition a b = true) :
    a ∈ allStateNames ∧ b ∈ allStateNames := by
  rw [isValidTransition, successors_def] at h
  simp only [allStateNames, NotReady, WaitingForBatch, WaitingForBlock, WaitingForEvent,
    ProcessingBatch, WaitingForFinalize] at h ⊢
  split_ifs at h <;> simp_all <;> tauto

/-- A valid transition leads to a reset state or to a higher rank. -/
theorem batchRank_step (a b : StateName) (h : isValidTransition a b = true) :
    b = NotReady ∨ b = WaitingForBatch ∨ batchRank a < batchRank b := by
  obtain ⟨ha, hb⟩ := isValidTransition_names a b h
  have key : ∀ x ∈ allStateNames, ∀ y ∈ allStateNames, isValidTransition x y = true →
      (y = NotReady ∨ y = WaitingForBatch ∨ batchRank x < batchRank y) := by decide
  exact key a ha b hb h

theorem batchRank_le (a : StateName) : batchRank a ≤ 4 := by
  unfold batchRank
  split_ifs <;> omega

/-- The source of a valid transition that is not a reset state has a
positive rank. -/
theorem batchRank_pos (a b : StateName) (h : isValidTransition a b = true)
    (h1 : a ≠ NotReady) (h2 : a ≠ WaitingForBatch) : 1 ≤ batchRank a := by
  obtain ⟨ha, _⟩ := isValidTransition_names a b h
  have key : ∀ x ∈ allStateNames, x ≠ NotReady → x ≠ WaitingForBatch → 1 ≤ batchRank x := by
    decide
  exact key a ha h1 h2

/-- Along a valid run that meets no reset state after its first state, the
rank grows by at least one at every step. -/
theorem batchRank_run (rest : List StateName) (a : StateName)
    (hrun : validRun (a :: rest) = true)
    (hno : ∀ x ∈ rest, x ≠ NotReady ∧ x ≠ WaitingForBatch) :
    ∃ z, (a :: rest).getLast? = some z ∧ batchRank a + rest.length ≤ batchRank z := by
  induction rest generalizing a with
  | nil => exact ⟨a, rfl, by simp⟩
  | cons b rest ih =>
    obtain ⟨hab, hrest⟩ := (validRun_cons_cons a b rest).1 hrun
    obtain ⟨z, hz, hle⟩ := ih b hrest (fun x hx => hno x (List.mem_cons_of_mem _ hx))
    have hb := hno b (List.mem_cons_self _ _)
    have hstep : batchRank a < batchRank b := by
      rcases batchRank_step a b hab with h | h | h
      · exact absurd h hb.1
      · exact absurd h hb.2
      · exact h
    refine ⟨z, ?_, ?_⟩
    · rw [List.getLast?_cons_cons]; exact hz
    · simp only [List.length_cons]; omega

/-- Bounded reachability is witnessed by a run. -/
theorem reachesWithin_sound (n : Nat) (a b : StateName) (h : reachesWithin n a b = true) :
    ∃ run : List StateName, run.head? = some a ∧ run.getLast? = some b ∧
      2 ≤ run.length ∧ validRun run = true := by
  induction n generalizing a with
  | zero => simp [reachesWithin] at h
  | succ n ih =>
    simp only [reachesWithin, Bool.or_eq_true, List.any_eq_true] at h
    rcases h with h | ⟨c, hc, hcb⟩
    · exact ⟨[a, b], rfl, rfl, by simp, by simp [validRun, h]⟩
    · obtain ⟨run, hhead, hlast, hlen, hrun⟩ := ih c hcb
      cases run with
      | nil => simp at hhead
      | cons c1 rest =>
        simp only [List.head?_cons, Option.some.injEq] at hhead
        subst hhead
        have hac : isValidTransition a c1 = true := by
          simpa [isValidTransition] using hc
        refine ⟨a :: c1 :: rest, rfl, ?_, ?_, ?_⟩
        · rw [List.getLast?_cons_cons]; exact hlast
        · simp only [List.length_cons] at hlen ⊢; omega
        · rw [validRun_cons_cons]; exact ⟨hac, hrun⟩

theorem validRun_drop (run : List StateName) (h : validRun run = true) (i : Nat) :
    validRun (run.drop i) = true := by
  induction i generalizing run with
  | zero => simpa using h
  | succ i ih =>
    cases run with
    | nil => rfl
    | cons a rest =>
      rw [List.drop_succ_cons]
      exact ih rest (validRun_tail a rest h)

theorem validRun_take (run : List StateName) (h : validRun run = true) (n : Nat) :
    validRun (run.take n) = true := by
  induction run generalizing n with
  | nil => simp [validRun]
  | cons a rest ih =>
    cases n with
    | zero => rfl
    | succ n =>
      cases rest with
      | nil => simp [validRun]
      | cons b rest =>
        obtain ⟨hab, hrest⟩ := (validRun_cons_cons a b rest).1 h
        cases n with
        | zero => rfl
        | succ n =>
          have h2 := ih hrest (n + 1)
          rw [List.take_succ_cons] at h2
          rw [List.take_succ_cons, List.take_succ_cons, validRun_cons_cons]
          exact ⟨hab, h2⟩

/-- A valid run of five states meets a reset state. -/
theorem five_run_meets_reset (run : List StateName) (hrun : validRun run = true)
    (hlen : run.length = 5) : NotReady ∈ run ∨ WaitingForBatch ∈ run := by
  by_contra hcon
  have hno : ∀ x ∈ run, x ≠ NotReady ∧ x ≠ WaitingForBatch := by
    intro x hx
    constructor
    · rintro rfl; exact hcon (Or.inl hx)
    · rintro rfl; exact hcon (Or.inr hx)
  cases run with
  | nil => simp at hlen
  | cons a rest =>
    cases rest with
    | nil => simp at hlen
    | cons b rest =>
      obtain ⟨hab, _⟩ := (validRun_cons_cons a b rest).1 hrun
      obtain ⟨z, _, hle⟩ := batchRank_run (b :: rest) a hrun
        (fun x hx => hno x (List.mem_cons_of_mem _ hx))
      have ha := hno a (List.mem_cons_self _ _)
      have hpos := batchRank_pos a b hab ha.1 ha.2
      have hz := batchRank_le z
      simp only [List.length_cons] at hlen hle
      omega

/-! ## String forms and the shape of the table -/

/-- C14: for every value of each of the six state types String() equals the
text of Name(), and that text is the identifier of the state spelled
exactly, whatever the payload. -/
theorem string_equals_name :
    (∀ s : StateNotReady, s.String = s.Name ∧ s.String = "NotReady") ∧
    (∀ s : StateWaitingForBatch, s.String = s.Name ∧ s.String = "WaitingForBatch") ∧
    (∀ s : StateWaitingForBlock, s.String = s.Name ∧ s.String = "WaitingForBlock") ∧
    (∀ s : StateWaitingForEvent, s.String = s.Name ∧ s.String = "WaitingForEvent") ∧
    (∀ s : StateProcessingBatch, s.String = s.Name ∧ s.String = "ProcessingBatch") ∧
    (∀ s : StateWaitingForFinalize, s.String = s.Name ∧ s.String = "WaitingForFinalize") :=
  ⟨fun _ => ⟨rfl, rfl⟩, fun _ => ⟨rfl, rfl⟩, fun _ => ⟨rfl, rfl⟩, fun _ => ⟨rfl, rfl⟩,
    fun _ => ⟨rfl, rfl⟩, fun _ => ⟨rfl, rfl⟩⟩

/-- C15: the table is total and closed over the six state names: its keys
are exactly the six names, each once; the successor list of each key is
non-empty, lists only names among the six, and lists no name twice. -/
theorem validStateTransitions_total_and_closed :
    (∀ a ∈ allStateNames, a ∈ transitionKeys) ∧
    (∀ a ∈ transitionKeys, a ∈ allStateNames) ∧
    transitionKeys.Nodup ∧
    (∀ row ∈ validStateTransitions,
      row.2 ≠ [] ∧ (∀ b ∈ row.2, b ∈ allStateNames) ∧ row.2.Nodup) ∧
    (∀ a ∈ allStateNames,
      successors a ≠ [] ∧ (∀ b ∈ successors a, b ∈ allStateNames) ∧ (successors a).Nodup) := by
  refine ⟨by decide, by decide, by decide, by decide, by decide⟩

/-- Witness for C15 at ProcessingBatch and its row. -/
theorem validStateTransitions_total_and_closed_witness :
    ProcessingBatch ∈ transitionKeys ∧
    (successors ProcessingBatch ≠ [] ∧ (∀ b ∈ successors ProcessingBatch, b ∈ allStateNames) ∧
      (successors ProcessingBatch).Nodup) :=
  ⟨validStateTransitions_total_and_closed.1 ProcessingBatch (by decide),
    validStateTransitions_total_and_closed.2.2.2.2 ProcessingBatch (by decide)⟩

/-- C16: the transition graph is strongly connected: for every ordered pair
(A, B) of the six state names there is a run of at least one valid
transition from A to B; in particular every state is reached from
NotReady. -/
theorem transition_graph_strongly_connected :
    (∀ a ∈ allStateNames, ∀ b ∈ allStateNames, ∃ run : List StateName,
      run.head? = some a ∧ run.getLast? = some b ∧ 2 ≤ run.length ∧ validRun run = true) ∧
    (∀ b ∈ allStateNames, ∃ run : List StateName,
      run.head? = some NotReady ∧ run.getLast? = some b ∧ 2 ≤ run.length ∧
        validRun run = true) := by
  have key : ∀ a ∈ allStateNames, ∀ b ∈ allStateNames, reachesWithin 3 a b = true := by
    decide
  exact ⟨fun a ha b hb => reachesWithin_sound 3 a b (key a ha b hb),
    fun b hb => reachesWithin_sound 3 NotReady b (key NotReady (by decide) b hb)⟩

/-- Witness for C16 at the pair (ProcessingBatch, WaitingForBlock). -/
theorem transition_graph_strongly_connected_witness :
    ∃ run : List StateName, run.head? = some ProcessingBatch ∧
      run.getLast? = some WaitingForBlock ∧ 2 ≤ run.length ∧ validRun run = true :=
  transition_graph_strongly_connected.1 ProcessingBatch (by decide) WaitingForBlock (by decide)

/-- C17: with the ranking WaitingForBlock < WaitingForEvent < ProcessingBatch
< WaitingForFinalize (the reset states NotReady and WaitingForBatch ranking
below them), every valid transition targets NotReady or WaitingForBatch or
goes to a state of strictly higher rank than its source; hence every run of
five states, and every five consecutive states of a longer run, contain
NotReady or WaitingForBatch, and every cycle of valid transitions passes
through NotReady or WaitingForBatch. -/
theorem batch_handling_moves_forward :
    (batchRank NotReady = 0 ∧ batchRank WaitingForBatch = 0 ∧
      0 < batchRank WaitingForBlock ∧ batchRank WaitingForBlock < batchRank WaitingForEvent ∧
      batchRank WaitingForEvent < batchRank ProcessingBatch ∧
      batchRank ProcessingBatch < batchRank WaitingForFinalize) ∧
    (∀ a b : StateName, isValidTransition a b = true →
      b = NotReady ∨ b = WaitingForBatch ∨ batchRank a < batchRank b) ∧
    (∀ run : List StateName, validRun run = true → run.length = 5 →
      NotReady ∈ run ∨ WaitingForBatch ∈ run) ∧
    (∀ (run : List StateName) (i : Nat), validRun run = true → i + 5 ≤ run.length →
      NotReady ∈ (run.drop i).take 5 ∨ WaitingForBatch ∈ (run.drop i).take 5) ∧
    (∀ run : List StateName, validRun run = true → 2 ≤ run.length →
      run.head? = run.getLast? → NotReady ∈ run ∨ WaitingForBatch ∈ run) := by
  refine ⟨by decide, batchRank_step, five_run_meets_reset, ?_, ?_⟩
  · intro run i hrun hlen
    apply five_run_meets_reset _ (validRun_take _ (validRun_drop run hrun i) 5)
    simp only [List.length_take, List.length_drop]
    omega
  · intro run hrun hlen hcycle
    by_contra hcon
    have hno : ∀ x ∈ run, x ≠ NotReady ∧ x ≠ WaitingForBatch := by
      intro x hx
      constructor
      · rintro rfl; exact hcon (Or.inl hx)
      · rintro rfl; exact hcon (Or.inr hx)
    cases run with
    | nil => simp at hlen
    | cons a rest =>
      cases rest with
      | nil => simp at hlen
      | cons b rest =>
        obtain ⟨hab, hrest⟩ := (validRun_cons_cons a b rest).1 hrun
        obtain ⟨z, hz, hle⟩ := batchRank_run rest b hrest
          (fun x hx => (hno x (List.mem_cons_of_mem _ (List.mem_cons_of_mem _ hx))))
        have hb := hno b (List.mem_cons_of_mem _ (List.mem_cons_self _ _))
        have hstep : batchRank a < batchRank b := by
          rcases batchRank_step a b hab with h | h | h
          · exact absurd h hb.1
          · exact absurd h hb.2
          · exact h
        rw [List.getLast?_cons_cons, hz] at hcycle
        simp only [List.head?_cons, Option.some.injEq] at hcycle
        subst hcycle
        omega

/-- Witness for C17 at the transition WaitingForBlock -> WaitingForEvent,
at the run WaitingForBlock, WaitingForEvent, ProcessingBatch,
WaitingForFinalize, WaitingForBatch, and at the cycle NotReady,
WaitingForBatch, NotReady. -/
theorem batch_handling_moves_forward_witness :
    (WaitingForEvent = NotReady ∨ WaitingForEvent = WaitingForBatch ∨
      batchRank WaitingForBlock < batchRank WaitingForEvent) ∧
    (NotReady ∈ [WaitingForBlock, WaitingForEvent, ProcessingBatch, WaitingForFinalize,
        WaitingForBatch] ∨
      WaitingForBatch ∈ [WaitingForBlock, WaitingForEvent, ProcessingBatch,
        WaitingForFinalize, WaitingForBatch]) ∧
    (NotReady ∈ [NotReady, WaitingForBatch, NotReady] ∨
      WaitingForBatch ∈ [NotReady, WaitingForBatch, NotReady]) :=
  ⟨batch_handling_moves_forward.2.1 WaitingForBlock WaitingForEvent (by decide),
    batch_handling_moves_forward.2.2.1
      [WaitingForBlock, WaitingForEvent, ProcessingBatch, WaitingForFinalize, WaitingForBatch]
      (by decide) (by decide),
    batch_handling_moves_forward.2.2.2.2 [NotReady, WaitingForBatch, NotReady] (by decide)
      (by decide) (by decide)⟩

/-- C18: the only state with a valid transition into WaitingForFinalize is
ProcessingBatch, the only state with a valid transition into
WaitingForBlock is WaitingForBatch, and the only states with a valid
transition into WaitingForEvent are WaitingForBatch and WaitingForBlock. -/
theorem batch_state_entry_points :
    (∀ a : StateName, isValidTransition a WaitingForFinalize = true ↔ a = ProcessingBatch) ∧
    (∀ a : StateName, isValidTransition a WaitingForBlock = true ↔ a = WaitingForBatch) ∧
    (∀ a : StateName, isValidTransition a WaitingForEvent = true ↔
      a = WaitingForBatch ∨ a = WaitingForBlock) := by
  have key1 : ∀ a ∈ allStateNames,
      isValidTransition a WaitingForFinalize = true → a = ProcessingBatch := by decide
  have key2 : ∀ a ∈ allStateNames,
      isValidTransition a WaitingForBlock = true → a = WaitingForBatch := by decide
  have key3 : ∀ a ∈ allStateNames, isValidTransition a WaitingForEvent = true →
      a = WaitingForBatch ∨ a = WaitingForBlock := by decide
  refine ⟨fun a => ⟨fun h => key1 a (isValidTransition_names a _ h).1 h, ?_⟩,
    fun a => ⟨fun h => key2 a (isValidTransition_names a _ h).1 h, ?_⟩,
    fun a => ⟨fun h => key3 a (isValidTransition_names a _ h).1 h, ?_⟩⟩
  · rintro rfl; decide
  · rintro rfl; decide
  · rintro (rfl | rfl) <;> decide

end Committee
